import Mathlib

/-!
# Verification of the Smith-Waterman alignment core (`alignment.py`)

This file embeds the two functions of `src/alignment.py` —
`smith_waterman_chunks` (single local alignment by dynamic programming with
tag-based affine gaps) and `find_multiple_alignments` (iterative masking
extractor) — as executable Lean definitions over exact rationals, and proves
or refutes the specification claims about them.

Similarity matrices are embedded as total functions `Nat → Nat → ℚ` together
with explicit dimensions `n1 n2`; the dynamic program is a left fold over the
row-major list of cells `(i, j)`, `1 ≤ i ≤ n1`, `1 ≤ j ≤ n2`, mirroring the
nested `for` loops of the source, and the traceback is a recursion that
mirrors the `while` loop.
-/

attribute [local semireducible] Rat.add Rat.mul Rat.inv Rat.sub Rat.ofScientific

namespace ProtAlign

/-- `GAP_OPEN` from `config.py`. -/
def GAP_OPEN : ℚ := -(2/10)

/-- `GAP_EXTEND` from `config.py`. -/
def GAP_EXTEND : ℚ := -(1/10)

/-- `SCORE_THRESHOLD` from `config.py`. -/
def SCORE_THRESHOLD : ℚ := 5/10

/-- A similarity matrix / score matrix, as a total function on indices. -/
abbrev Grid := Nat → Nat → ℚ

/-- The traceback-tag matrix (`0` stop, `1` diagonal, `2` up, `3` left). -/
abbrev TagGrid := Nat → Nat → Nat

/-- Write value `v` at position `(a, b)` of a rational grid. -/
def updG (f : Grid) (a b : Nat) (v : ℚ) : Grid :=
  fun i j => if i = a ∧ j = b then v else f i j

/-- Write value `v` at position `(a, b)` of a tag grid. -/
def updT (f : TagGrid) (a b : Nat) (v : Nat) : TagGrid :=
  fun i j => if i = a ∧ j = b then v else f i j

/-- The mutable state of the dynamic-programming loop of
`smith_waterman_chunks`: score matrix `H_matrix`, `traceback` tags, and the
running maximum with its position. -/
structure SWState where
  H : Grid
  T : TagGrid
  maxScore : ℚ
  maxPos : Nat × Nat

/-- Initial state: `H_matrix` and `traceback` all zero, `max_score = 0`,
`max_pos = (0, 0)`. -/
def initState : SWState := ⟨fun _ _ => 0, fun _ _ => 0, 0, (0, 0)⟩

/-- `np.argmax [s0, s1, s2, s3]`: the least index attaining the maximum. -/
def argmax4 (s0 s1 s2 s3 : ℚ) : Nat :=
  let m := max (max s0 s1) (max s2 s3)
  if s0 = m then 0 else if s1 = m then 1 else if s2 = m then 2 else 3

/-- `[s0, s1, s2, s3][k]` (indices `≥ 4` do not arise). -/
def pick4 (s0 s1 s2 s3 : ℚ) : Nat → ℚ
  | 0 => s0
  | 1 => s1
  | 2 => s2
  | _ => s3

/-- The diagonal candidate at cell `(i, j)`:
`match = H_matrix[i-1, j-1] + (S[i-1, j-1] - score_threshold)`. -/
def mtchAt (S : Grid) (th : ℚ) (st : SWState) (i j : Nat) : ℚ :=
  st.H (i - 1) (j - 1) + (S (i - 1) (j - 1) - th)

/-- The vertical-gap candidate at cell `(i, j)`:
`gap_h = H_matrix[i-1, j] + (gap_extend if traceback[i-1, j] == 2 else gap_open)`. -/
def gapHAt (go ge : ℚ) (st : SWState) (i j : Nat) : ℚ :=
  st.H (i - 1) j + (if st.T (i - 1) j = 2 then ge else go)

/-- The horizontal-gap candidate at cell `(i, j)`:
`gap_b = H_matrix[i, j-1] + (gap_extend if traceback[i, j-1] == 3 else gap_open)`. -/
def gapBAt (go ge : ℚ) (st : SWState) (i j : Nat) : ℚ :=
  st.H i (j - 1) + (if st.T i (j - 1) = 3 then ge else go)

/-- The tag stored at a cell: `best = np.argmax([0, match, gap_h, gap_b])`. -/
def cellT (go ge th : ℚ) (S : Grid) (st : SWState) (c : Nat × Nat) : Nat :=
  argmax4 0 (mtchAt S th st c.1 c.2) (gapHAt go ge st c.1 c.2) (gapBAt go ge st c.1 c.2)

/-- The score stored at a cell: `H_matrix[i, j] = scores[best]`. -/
def cellV (go ge th : ℚ) (S : Grid) (st : SWState) (c : Nat × Nat) : ℚ :=
  pick4 0 (mtchAt S th st c.1 c.2) (gapHAt go ge st c.1 c.2) (gapBAt go ge st c.1 c.2)
    (cellT go ge th S st c)

/-- The body of the inner loop of `smith_waterman_chunks` at cell
`c = (i, j)`: compute the four candidate scores, store the best score and
its tag, and update the running maximum (strict comparison, so the earliest
maximum in row-major order is kept). -/
def swStep (go ge th : ℚ) (S : Grid) (st : SWState) (c : Nat × Nat) : SWState :=
  let best := cellT go ge th S st c
  let v := cellV go ge th S st c
  let H2 := updG st.H c.1 c.2 v
  let T2 := updT st.T c.1 c.2 best
  if st.maxScore < v then ⟨H2, T2, v, c⟩ else ⟨H2, T2, st.maxScore, st.maxPos⟩

/-- The cells `(i, b)` of one row of the dynamic program, `1 ≤ b ≤ n2`,
in increasing order of `b` (the inner `for j in range(1, n_bact + 1)`). -/
def rowCells (i n2 : Nat) : List (Nat × Nat) :=
  (List.range n2).map (fun b => (i, b + 1))

/-- All cells `(i, j)`, `1 ≤ i ≤ n1`, `1 ≤ j ≤ n2`, in row-major order
(the nested `for i ... for j ...` loops). -/
def cellList : Nat → Nat → List (Nat × Nat)
  | 0, _ => []
  | n + 1, n2 => cellList n n2 ++ rowCells (n + 1) n2

/-- The dynamic-programming phase of `smith_waterman_chunks`: fold the loop
body over all cells in row-major order. -/
def swRun (S : Grid) (n1 n2 : Nat) (go ge th : ℚ) : SWState :=
  (cellList n1 n2).foldl (swStep go ge th S) initState

/-- The body of the traceback `while` loop, structurally recursive on a fuel
bound: every iteration strictly decreases `i + j`, so with `fuel ≥ i + j` the
fuel never runs out before the loop's own exit condition fires (at `fuel = 0`
the invariant forces `i = 0`, where the loop guard is false anyway). -/
def tracebackGo (H : Grid) (T : TagGrid) : Nat → Nat → Nat → List (Nat × Nat)
  | 0, _, _ => []
  | fuel + 1, i, j =>
    if 0 < i ∧ 0 < j ∧ 0 < H i j then
      match T i j with
      | 1 => (i - 1, j - 1) :: tracebackGo H T fuel (i - 1) (j - 1)
      | 2 => tracebackGo H T fuel (i - 1) j
      | 3 => tracebackGo H T fuel i (j - 1)
      | _ => []
    else []

/-- The traceback `while` loop of `smith_waterman_chunks`, producing the
aligned pairs in the order they are appended (from the maximum position
backwards); the caller reverses the result. -/
def tracebackAux (H : Grid) (T : TagGrid) (i j : Nat) : List (Nat × Nat) :=
  tracebackGo H T (i + j) i j

/-- `smith_waterman_chunks(S, gap_open, gap_extend, score_threshold)`:
returns `(max_score, alignment, H_matrix)`. -/
def smith_waterman_chunks (S : Grid) (n1 n2 : Nat) (go ge th : ℚ) :
    ℚ × List (Nat × Nat) × Grid :=
  let st := swRun S n1 n2 go ge th
  (st.maxScore, (tracebackAux st.H st.T st.maxPos.1 st.maxPos.2).reverse, st.H)

/-- The masking step of `find_multiple_alignments`: zero every cell of the
alignment in the working matrix. -/
def maskAll (W : Grid) (ps : List (Nat × Nat)) : Grid :=
  ps.foldl (fun g p => updG g p.1 p.2 0) W

/-- The `for _ in range(max_alignments)` loop of `find_multiple_alignments`,
acting on the working matrix `W`: run the aligner, stop if the score is below
`min_score` or the alignment shorter than `min_chunks`, otherwise record the
pair and recurse on the masked matrix. -/
def fmaLoop (n1 n2 : Nat) (go ge mins : ℚ) (minc : Nat) :
    Nat → Grid → List (ℚ × List (Nat × Nat))
  | 0, _ => []
  | k + 1, W =>
    let r := smith_waterman_chunks W n1 n2 go ge SCORE_THRESHOLD
    if r.1 < mins ∨ r.2.1.length < minc then []
    else (r.1, r.2.1) :: fmaLoop n1 n2 go ge mins minc k (maskAll W r.2.1)

/-- `find_multiple_alignments(S, gap_open, gap_extend, min_score, min_chunks,
max_alignments)`: note the inner aligner is invoked with the default
`score_threshold = SCORE_THRESHOLD`, exactly as in the source. -/
def find_multiple_alignments (S : Grid) (n1 n2 : Nat) (go ge mins : ℚ)
    (minc maxa : Nat) : List (ℚ × List (Nat × Nat)) :=
  fmaLoop n1 n2 go ge mins minc maxa S

/-- A heap of named matrices, for stating the frame property of the
Extractor: slot `orig` holds the caller's matrix, a distinct slot `work`
holds the private copy `S_work = S.copy()`. -/
abbrev Store := Nat → Grid

/-- Overwrite one slot of the store. -/
def storeSet (st : Store) (r : Nat) (g : Grid) : Store :=
  fun k => if k = r then g else st k

/-- The loop of `find_multiple_alignments` acting on the store: every write
(the masking `S_work[i, j] = 0`) goes to slot `work` and to no other slot. -/
def fmaStoreLoop (n1 n2 : Nat) (go ge mins : ℚ) (minc work : Nat) :
    Nat → Store → List (ℚ × List (Nat × Nat)) × Store
  | 0, st => ([], st)
  | k + 1, st =>
    let r := smith_waterman_chunks (st work) n1 n2 go ge SCORE_THRESHOLD
    if r.1 < mins ∨ r.2.1.length < minc then ([], st)
    else
      let rest := fmaStoreLoop n1 n2 go ge mins minc work k
        (storeSet st work (maskAll (st work) r.2.1))
      ((r.1, r.2.1) :: rest.1, rest.2)

/-- `find_multiple_alignments` on the store: `S_work = S.copy()` is modelled
by writing a copy of the contents of slot `orig` into the fresh slot `work`,
after which the loop only ever touches slot `work`. -/
def find_multiple_alignments_store (st : Store) (orig work : Nat) (n1 n2 : Nat)
    (go ge mins : ℚ) (minc maxa : Nat) : List (ℚ × List (Nat × Nat)) × Store :=
  fmaStoreLoop n1 n2 go ge mins minc work maxa (storeSet st work (st orig))

/-- The 4×4 similarity matrix on which the Extractor returns overlapping
alignments (with `gap_open = gap_extend = -3/10`). -/
def S1 : Grid := fun i j =>
  match i, j with
  | 0, 0 => 3 | 1, 0 => 3 | 2, 1 => 2 | 3, 2 => 2 | 3, 3 => 3
  | _, _ => 0

/-- The 5×2 similarity matrix on which raising the single entry `(2, 0)`
from `0` to `11/5` strictly decreases the maximum score (with the default
parameters): the raise turns the tag at cell `(3, 1)` from `UP` into
`DIAGONAL` by a tie, which changes the gap penalty charged at cell `(4, 1)`
from `gap_extend` to `gap_open`. -/
def S2a : Grid := fun i j =>
  match i, j with
  | 0, 0 => 5/2 | 4, 1 => 2
  | _, _ => 0

/-- The 6×2 similarity matrix on which the Extractor (default gap
parameters) returns scores in strictly increasing order `[3, 31/10]`:
masking the first alignment's cell `(2, 0)` flips the tag at cell `(3, 1)`
back from `DIAGONAL` to `UP`, lowering the gap cost charged below it. -/
def S3c : Grid := fun i j =>
  match i, j with
  | 0, 0 => 5/2 | 2, 0 => 11/5 | 4, 1 => 2 | 5, 1 => 21/10
  | _, _ => 0

/-- The strict row-major order on dynamic-programming cells. -/
def cellLt (p q : Nat × Nat) : Prop :=
  p.1 < q.1 ∨ (p.1 = q.1 ∧ p.2 < q.2)

theorem argmax4_le_three (s0 s1 s2 s3 : ℚ) : argmax4 s0 s1 s2 s3 ≤ 3 := by
  unfold argmax4
  dsimp only
  split_ifs <;> omega

theorem pick4_argmax4 (s0 s1 s2 s3 : ℚ) :
    pick4 s0 s1 s2 s3 (argmax4 s0 s1 s2 s3) = max (max s0 s1) (max s2 s3) := by
  unfold argmax4
  dsimp only
  split_ifs with h0 h1 h2
  · simpa [pick4] using h0
  · simpa [pick4] using h1
  · simpa [pick4] using h2
  · have hm : max (max s0 s1) (max s2 s3) = s3 := by
      rcases max_choice (max s0 s1) (max s2 s3) with h | h
      · rcases max_choice s0 s1 with h3' | h3'
        · exact absurd (h.trans h3').symm h0
        · exact absurd (h.trans h3').symm h1
      · rcases max_choice s2 s3 with h3' | h3'
        · exact absurd (h.trans h3').symm h2
        · exact h.trans h3'
    simp [pick4, hm]

theorem argmax4_least (s0 s1 s2 s3 : ℚ) (k : Nat)
    (hk : pick4 s0 s1 s2 s3 k = max (max s0 s1) (max s2 s3)) :
    argmax4 s0 s1 s2 s3 ≤ k := by
  unfold argmax4
  dsimp only
  split_ifs with h0 h1 h2
  · exact Nat.zero_le k
  · match k with
    | 0 => exact absurd (by simpa [pick4] using hk) h0
    | k + 1 => omega
  · match k with
    | 0 => exact absurd (by simpa [pick4] using hk) h0
    | 1 => exact absurd (by simpa [pick4] using hk) h1
    | k + 2 => omega
  · match k with
    | 0 => exact absurd (by simpa [pick4] using hk) h0
    | 1 => exact absurd (by simpa [pick4] using hk) h1
    | 2 => exact absurd (by simpa [pick4] using hk) h2
    | k + 3 => omega

theorem swStep_H (go ge th : ℚ) (S : Grid) (st : SWState) (c : Nat × Nat)
    (a b : Nat) :
    (swStep go ge th S st c).H a b =
      if a = c.1 ∧ b = c.2 then cellV go ge th S st c else st.H a b := by
  unfold swStep
  dsimp only
  split <;> rfl

theorem swStep_T (go ge th : ℚ) (S : Grid) (st : SWState) (c : Nat × Nat)
    (a b : Nat) :
    (swStep go ge th S st c).T a b =
      if a = c.1 ∧ b = c.2 then cellT go ge th S st c else st.T a b := by
  unfold swStep
  dsimp only
  split <;> rfl

theorem swStep_maxScore (go ge th : ℚ) (S : Grid) (st : SWState) (c : Nat × Nat) :
    (swStep go ge th S st c).maxScore = max st.maxScore (cellV go ge th S st c) := by
  unfold swStep
  dsimp only
  split
  next h => exact (max_eq_right (le_of_lt h)).symm
  next h => exact (max_eq_left (not_lt.mp h)).symm

theorem swStep_maxPos (go ge th : ℚ) (S : Grid) (st : SWState) (c : Nat × Nat) :
    (swStep go ge th S st c).maxPos =
      if st.maxScore < cellV go ge th S st c then c else st.maxPos := by
  unfold swStep
  dsimp only
  split <;> simp_all

theorem foldl_H_stable (go ge th : ℚ) (S : Grid) (l : List (Nat × Nat)) :
    ∀ (st : SWState) (a b : Nat), (∀ c ∈ l, ¬(a = c.1 ∧ b = c.2)) →
      (l.foldl (swStep go ge th S) st).H a b = st.H a b := by
  induction l with
  | nil => intro st a b _; rfl
  | cons c l ih =>
    intro st a b h
    rw [List.foldl_cons, ih _ a b (fun q hq => h q (List.mem_cons_of_mem c hq)),
      swStep_H, if_neg (h c (List.mem_cons_self c l))]

theorem foldl_T_stable (go ge th : ℚ) (S : Grid) (l : List (Nat × Nat)) :
    ∀ (st : SWState) (a b : Nat), (∀ c ∈ l, ¬(a = c.1 ∧ b = c.2)) →
      (l.foldl (swStep go ge th S) st).T a b = st.T a b := by
  induction l with
  | nil => intro st a b _; rfl
  | cons c l ih =>
    intro st a b h
    rw [List.foldl_cons, ih _ a b (fun q hq => h q (List.mem_cons_of_mem c hq)),
      swStep_T, if_neg (h c (List.mem_cons_self c l))]

theorem mem_rowCells {i n2 : Nat} {c : Nat × Nat} :
    c ∈ rowCells i n2 ↔ c.1 = i ∧ 1 ≤ c.2 ∧ c.2 ≤ n2 := by
  unfold rowCells
  simp only [List.mem_map, List.mem_range]
  constructor
  · rintro ⟨b, hb, rfl⟩
    exact ⟨rfl, by omega, by omega⟩
  · rintro ⟨h1, h2, h3⟩
    refine ⟨c.2 - 1, by omega, ?_⟩
    rcases c with ⟨x, y⟩
    dsimp only at h1 h2 h3 ⊢
    subst h1
    congr 1
    omega

theorem mem_cellList {n2 : Nat} : ∀ {n1 : Nat} {c : Nat × Nat},
    c ∈ cellList n1 n2 ↔ 1 ≤ c.1 ∧ c.1 ≤ n1 ∧ 1 ≤ c.2 ∧ c.2 ≤ n2 := by
  intro n1
  induction n1 with
  | zero => intro c; simp [cellList]; omega
  | succ n ih =>
    intro c
    rw [cellList, List.mem_append, ih, mem_rowCells]
    omega

theorem cellList_pairwise (n1 n2 : Nat) : (cellList n1 n2).Pairwise cellLt := by
  induction n1 with
  | zero => exact List.Pairwise.nil
  | succ n ih =>
    rw [cellList]
    refine List.pairwise_append.mpr ⟨ih, ?_, ?_⟩
    · unfold rowCells
      refine List.pairwise_map.mpr ?_
      refine List.Pairwise.imp ?_ (List.pairwise_lt_range n2)
      intro a b hab
      exact Or.inr ⟨rfl, by omega⟩
    · intro a ha b hb
      have h1 := mem_cellList.mp ha
      have h2 := mem_rowCells.mp hb
      exact Or.inl (by omega)

theorem swRun_boundary (S : Grid) (n1 n2 : Nat) (go ge th : ℚ) (a b : Nat)
    (hab : a = 0 ∨ b = 0) : (swRun S n1 n2 go ge th).H a b = 0 := by
  unfold swRun
  rw [foldl_H_stable]
  · rfl
  · intro c hc
    have := mem_cellList.mp hc
    omega

theorem swRun_cell (S : Grid) (n1 n2 : Nat) (go ge th : ℚ) (i j : Nat)
    (h1 : 1 ≤ i) (h2 : i ≤ n1) (h3 : 1 ≤ j) (h4 : j ≤ n2) :
    (swRun S n1 n2 go ge th).H i j =
      cellV go ge th S (swRun S n1 n2 go ge th) (i, j) ∧
    (swRun S n1 n2 go ge th).T i j =
      cellT go ge th S (swRun S n1 n2 go ge th) (i, j) := by
  have hc : (i, j) ∈ cellList n1 n2 := mem_cellList.mpr ⟨h1, h2, h3, h4⟩
  obtain ⟨l1, l2, hsp⟩ := List.append_of_mem hc
  have hpw := cellList_pairwise n1 n2
  rw [hsp] at hpw
  have hl2 : ∀ q ∈ l2, cellLt (i, j) q :=
    (List.pairwise_cons.mp (List.pairwise_append.mp hpw).2.1).1
  have hl2' : ∀ q ∈ l2, i < q.1 ∨ (i = q.1 ∧ j < q.2) := fun q hq => hl2 q hq
  set st1 := l1.foldl (swStep go ge th S) initState with hst1
  set st2 := swStep go ge th S st1 (i, j) with hst2
  have hrun : swRun S n1 n2 go ge th = l2.foldl (swStep go ge th S) st2 := by
    unfold swRun
    rw [hsp, List.foldl_append, List.foldl_cons]
  have hne : ∀ a b : Nat, (a < i ∨ (a = i ∧ b ≤ j)) →
      ∀ q ∈ l2, ¬(a = q.1 ∧ b = q.2) := by
    intro a b hab q hq
    have := hl2' q hq
    omega
  have hH00 : (swRun S n1 n2 go ge th).H (i - 1) (j - 1) = st1.H (i - 1) (j - 1) := by
    rw [hrun, foldl_H_stable go ge th S l2 st2 _ _ (hne _ _ (Or.inl (by omega))),
      hst2, swStep_H, if_neg (by omega)]
  have hH01 : (swRun S n1 n2 go ge th).H (i - 1) j = st1.H (i - 1) j := by
    rw [hrun, foldl_H_stable go ge th S l2 st2 _ _ (hne _ _ (Or.inl (by omega))),
      hst2, swStep_H, if_neg (by omega)]
  have hH10 : (swRun S n1 n2 go ge th).H i (j - 1) = st1.H i (j - 1) := by
    rw [hrun, foldl_H_stable go ge th S l2 st2 _ _ (hne _ _ (Or.inr ⟨rfl, by omega⟩)),
      hst2, swStep_H, if_neg (by omega)]
  have hT01 : (swRun S n1 n2 go ge th).T (i - 1) j = st1.T (i - 1) j := by
    rw [hrun, foldl_T_stable go ge th S l2 st2 _ _ (hne _ _ (Or.inl (by omega))),
      hst2, swStep_T, if_neg (by omega)]
  have hT10 : (swRun S n1 n2 go ge th).T i (j - 1) = st1.T i (j - 1) := by
    rw [hrun, foldl_T_stable go ge th S l2 st2 _ _ (hne _ _ (Or.inr ⟨rfl, by omega⟩)),
      hst2, swStep_T, if_neg (by omega)]
  have hcT : cellT go ge th S (swRun S n1 n2 go ge th) (i, j) = cellT go ge th S st1 (i, j) := by
    unfold cellT mtchAt gapHAt gapBAt
    dsimp only
    rw [hH00, hH01, hH10, hT01, hT10]
  have hcV : cellV go ge th S (swRun S n1 n2 go ge th) (i, j) = cellV go ge th S st1 (i, j) := by
    unfold cellV cellT mtchAt gapHAt gapBAt
    dsimp only
    rw [hH00, hH01, hH10, hT01, hT10]
  have hHcell : (swRun S n1 n2 go ge th).H i j = st2.H i j := by
    rw [hrun]
    exact foldl_H_stable go ge th S l2 st2 i j (hne i j (Or.inr ⟨rfl, le_refl j⟩))
  have hTcell : (swRun S n1 n2 go ge th).T i j = st2.T i j := by
    rw [hrun]
    exact foldl_T_stable go ge th S l2 st2 i j (hne i j (Or.inr ⟨rfl, le_refl j⟩))
  constructor
  · rw [hHcell, hst2, swStep_H, if_pos ⟨rfl, rfl⟩, hcV]
  · rw [hTcell, hst2, swStep_T, if_pos ⟨rfl, rfl⟩, hcT]

theorem cellV_mono (g th : ℚ) (S S2 : Grid) (st st2 : SWState) (c : Nat × Nat)
    (hS : ∀ a b, S a b ≤ S2 a b) (hH : ∀ a b, st.H a b ≤ st2.H a b) :
    cellV g g th S st c ≤ cellV g g th S2 st2 c := by
  unfold cellV cellT
  rw [pick4_argmax4, pick4_argmax4]
  have hm : mtchAt S th st c.1 c.2 ≤ mtchAt S2 th st2 c.1 c.2 := by
    unfold mtchAt
    exact add_le_add (hH _ _) (sub_le_sub_right (hS _ _) th)
  have hgh : gapHAt g g st c.1 c.2 ≤ gapHAt g g st2 c.1 c.2 := by
    unfold gapHAt
    simp only [ite_self]
    exact add_le_add_right (hH _ _) g
  have hgb : gapBAt g g st c.1 c.2 ≤ gapBAt g g st2 c.1 c.2 := by
    unfold gapBAt
    simp only [ite_self]
    exact add_le_add_right (hH _ _) g
  exact max_le_max (max_le_max (le_refl 0) hm) (max_le_max hgh hgb)

theorem foldl_mono (g th : ℚ) (S S2 : Grid) (hS : ∀ a b, S a b ≤ S2 a b)
    (l : List (Nat × Nat)) :
    ∀ st st2 : SWState, (∀ a b, st.H a b ≤ st2.H a b) →
      st.maxScore ≤ st2.maxScore →
      (∀ a b, (l.foldl (swStep g g th S) st).H a b ≤
        (l.foldl (swStep g g th S2) st2).H a b) ∧
      (l.foldl (swStep g g th S) st).maxScore ≤
        (l.foldl (swStep g g th S2) st2).maxScore := by
  induction l with
  | nil => exact fun st st2 hH hM => ⟨hH, hM⟩
  | cons c l ih =>
    intro st st2 hH hM
    rw [List.foldl_cons, List.foldl_cons]
    apply ih
    · intro a b
      rw [swStep_H, swStep_H]
      by_cases hab : a = c.1 ∧ b = c.2
      · rw [if_pos hab, if_pos hab]
        exact cellV_mono g th S S2 st st2 c hS hH
      · rw [if_neg hab, if_neg hab]
        exact hH a b
    · rw [swStep_maxScore, swStep_maxScore]
      exact max_le_max hM (cellV_mono g th S S2 st st2 c hS hH)

theorem sw_maxScore_mono (S S2 : Grid) (n1 n2 : Nat) (g th : ℚ)
    (hS : ∀ a b, S a b ≤ S2 a b) :
    (smith_waterman_chunks S n1 n2 g g th).1 ≤
      (smith_waterman_chunks S2 n1 n2 g g th).1 := by
  unfold smith_waterman_chunks swRun
  exact (foldl_mono g th S S2 hS (cellList n1 n2) initState initState
    (fun a b => le_refl 0) (le_refl 0)).2

theorem maskAll_le (ps : List (Nat × Nat)) :
    ∀ W : Grid, (∀ a b, 0 ≤ W a b) →
      (∀ a b, maskAll W ps a b ≤ W a b) ∧ (∀ a b, 0 ≤ maskAll W ps a b) := by
  induction ps with
  | nil => exact fun W hW => ⟨fun a b => le_refl _, hW⟩
  | cons p ps ih =>
    intro W hW
    have hW' : ∀ a b, 0 ≤ updG W p.1 p.2 0 a b := by
      intro a b
      unfold updG
      split
      · exact le_refl 0
      · exact hW a b
    obtain ⟨ih1, ih2⟩ := ih (updG W p.1 p.2 0) hW'
    refine ⟨fun a b => le_trans (ih1 a b) ?_, ih2⟩
    unfold updG
    split
    · exact hW a b
    · exact le_refl _

theorem fmaLoop_head_score (n1 n2 : Nat) (go ge mins : ℚ) (minc k : Nat)
    (W : Grid) (x : ℚ × List (Nat × Nat)) (l : List (ℚ × List (Nat × Nat)))
    (hx : fmaLoop n1 n2 go ge mins minc k W = x :: l) :
    x.1 = (smith_waterman_chunks W n1 n2 go ge SCORE_THRESHOLD).1 := by
  cases k with
  | zero => exact absurd hx (by simp [fmaLoop])
  | succ k =>
    unfold fmaLoop at hx
    dsimp only at hx
    split at hx
    · exact absurd hx (by simp)
    · injection hx with h1 h2
      rw [← h1]

theorem fmaLoop_scores_chain (n1 n2 : Nat) (g mins : ℚ) (minc : Nat) :
    ∀ (k : Nat) (W : Grid), (∀ a b, 0 ≤ W a b) →
      List.Chain' (fun x y => y.1 ≤ x.1) (fmaLoop n1 n2 g g mins minc k W) := by
  intro k
  induction k with
  | zero => exact fun W _ => List.chain'_nil
  | succ k ih =>
    intro W hW
    unfold fmaLoop
    dsimp only
    split
    · exact List.chain'_nil
    · refine List.chain'_cons'.mpr ⟨?_, ih _ (maskAll_le _ W hW).2⟩
      intro y hy
      rcases hrest : fmaLoop n1 n2 g g mins minc k
          (maskAll W (smith_waterman_chunks W n1 n2 g g SCORE_THRESHOLD).2.1) with
        _ | ⟨x, l⟩
      · rw [hrest] at hy
        simp at hy
      · rw [hrest] at hy
        simp only [List.head?] at hy
        have hx1 := fmaLoop_head_score n1 n2 g g mins minc k _ x l hrest
        have hmono := sw_maxScore_mono
          (maskAll W (smith_waterman_chunks W n1 n2 g g SCORE_THRESHOLD).2.1) W
          n1 n2 g SCORE_THRESHOLD (maskAll_le _ W hW).1
        rw [Option.mem_some_iff] at hy
        rw [← hy]
        exact le_trans (le_of_eq hx1) hmono

theorem tracebackGo_mem (H : Grid) (T : TagGrid) :
    ∀ (fuel i j : Nat) (p : Nat × Nat), p ∈ tracebackGo H T fuel i j →
      p.1 < i ∧ p.2 < j := by
  intro fuel
  induction fuel with
  | zero =>
    intro i j p hp
    exact absurd hp (by simp [tracebackGo])
  | succ fuel ih =>
    intro i j p hp
    unfold tracebackGo at hp
    split at hp
    · next hg =>
      split at hp
      · rcases List.mem_cons.mp hp with h | h
        · subst h
          omega
        · have := ih _ _ p h
          omega
      · have := ih _ _ p hp
        omega
      · have := ih _ _ p hp
        omega
      · exact absurd hp (by simp)
    · exact absurd hp (by simp)

theorem foldl_maxPos_le (go ge th : ℚ) (S : Grid) (n1 n2 : Nat)
    (l : List (Nat × Nat)) (hl : ∀ c ∈ l, c.1 ≤ n1 ∧ c.2 ≤ n2) :
    ∀ st : SWState, st.maxPos.1 ≤ n1 ∧ st.maxPos.2 ≤ n2 →
      (l.foldl (swStep go ge th S) st).maxPos.1 ≤ n1 ∧
      (l.foldl (swStep go ge th S) st).maxPos.2 ≤ n2 := by
  induction l with
  | nil => exact fun st h => h
  | cons c l ih =>
    intro st hst
    rw [List.foldl_cons]
    refine ih (fun q hq => hl q (List.mem_cons_of_mem c hq)) _ ?_
    rw [swStep_maxPos]
    split
    · exact hl c (List.mem_cons_self c l)
    · exact hst

theorem sw_alignment_bounds (S : Grid) (n1 n2 : Nat) (go ge th : ℚ)
    (p : Nat × Nat) (hp : p ∈ (smith_waterman_chunks S n1 n2 go ge th).2.1) :
    p.1 < n1 ∧ p.2 < n2 := by
  unfold smith_waterman_chunks at hp
  dsimp only at hp
  rw [List.mem_reverse] at hp
  have hb : (swRun S n1 n2 go ge th).maxPos.1 ≤ n1 ∧
      (swRun S n1 n2 go ge th).maxPos.2 ≤ n2 := by
    unfold swRun
    exact foldl_maxPos_le go ge th S n1 n2 (cellList n1 n2)
      (fun c hc => ⟨(mem_cellList.mp hc).2.1, (mem_cellList.mp hc).2.2.2⟩)
      initState ⟨Nat.zero_le n1, Nat.zero_le n2⟩
  have := tracebackGo_mem (swRun S n1 n2 go ge th).H (swRun S n1 n2 go ge th).T
    _ _ _ p hp
  omega

theorem fmaLoop_alignment_bounds (n1 n2 : Nat) (go ge mins : ℚ) (minc : Nat) :
    ∀ (k : Nat) (W : Grid) (sa : ℚ × List (Nat × Nat)),
      sa ∈ fmaLoop n1 n2 go ge mins minc k W →
      ∀ p ∈ sa.2, p.1 < n1 ∧ p.2 < n2 := by
  intro k
  induction k with
  | zero =>
    intro W sa hsa
    exact absurd hsa (by simp [fmaLoop])
  | succ k ih =>
    intro W sa hsa
    unfold fmaLoop at hsa
    dsimp only at hsa
    split at hsa
    · exact absurd hsa (by simp)
    · rcases List.mem_cons.mp hsa with h | h
      · subst h
        intro p hp
        exact sw_alignment_bounds W n1 n2 go ge SCORE_THRESHOLD p hp
      · exact ih _ sa h

theorem foldl_zero_invariant (S : Grid) (go ge th : ℚ) (hgo : go < 0)
    (hge : ge < 0) (hS : ∀ a b, S a b ≤ th) (l : List (Nat × Nat)) :
    ∀ st : SWState, (∀ a b, st.H a b = 0) → st.maxScore = 0 →
      st.maxPos = (0, 0) →
      (∀ a b, (l.foldl (swStep go ge th S) st).H a b = 0) ∧
      (l.foldl (swStep go ge th S) st).maxScore = 0 ∧
      (l.foldl (swStep go ge th S) st).maxPos = (0, 0) := by
  induction l with
  | nil => exact fun st h1 h2 h3 => ⟨h1, h2, h3⟩
  | cons c l ih =>
    intro st h1 h2 h3
    rw [List.foldl_cons]
    have hv : cellV go ge th S st c = 0 := by
      unfold cellV cellT
      rw [pick4_argmax4]
      have hm : mtchAt S th st c.1 c.2 ≤ 0 := by
        unfold mtchAt
        rw [h1]
        have := hS (c.1 - 1) (c.2 - 1)
        linarith
      have hgh : gapHAt go ge st c.1 c.2 ≤ 0 := by
        unfold gapHAt
        rw [h1]
        split <;> linarith
      have hgb : gapBAt go ge st c.1 c.2 ≤ 0 := by
        unfold gapBAt
        rw [h1]
        split <;> linarith
      refine le_antisymm (max_le (max_le (le_refl 0) hm) (max_le hgh hgb)) ?_
      exact le_trans (le_max_left 0 _) (le_max_left _ _)
    refine ih _ ?_ ?_ ?_
    · intro a b
      rw [swStep_H]
      split
      · exact hv
      · exact h1 a b
    · rw [swStep_maxScore, h2, hv]
      exact max_self 0
    · rw [swStep_maxPos, h2, hv]
      simp [h3]

theorem S1_nonneg : ∀ a b : Nat, 0 ≤ S1 a b := by
  intro a b
  unfold S1
  split <;> norm_num

set_option maxRecDepth 40000 in
/-- C1: on the matrix `S1` with `gap_open = gap_extend = -3/10`,
`min_score = 1/100`, `min_chunks = 1`, `max_alignments = 2`, the Extractor
returns two alignments that both contain the index pair `(2, 1)`: the union
of index pairs across the returned alignments contains a duplicate, so the
returned alignments are not pairwise disjoint, contradicting the
"non-overlapping" contract. -/
theorem C1_overlap_eval :
    find_multiple_alignments S1 4 4 (-(3/10)) (-(3/10)) (1/100) 1 2 =
      [(31/5, [(1, 0), (2, 1), (3, 3)]), (16/5, [(0, 0), (2, 1), (3, 2)])] ∧
    ¬ (((find_multiple_alignments S1 4 4 (-(3/10)) (-(3/10)) (1/100) 1 2).map
        Prod.snd).flatten).Nodup := by
  decide

set_option maxRecDepth 40000 in
/-- C2 (counterexample): on the 5×2 matrix `S2a` with the default
parameters, raising the single entry `(2, 0)` from `0` to `11/5` (all other
entries and all parameters fixed) strictly decreases the maximum score
returned by `smith_waterman_chunks` (from `31/10` to `3`), so increasing a
single similarity value can decrease the maximum achievable score. -/
theorem C2_counterexample :
    S2a 2 0 < 11/5 ∧
    (smith_waterman_chunks (updG S2a 2 0 (11/5)) 5 2 GAP_OPEN GAP_EXTEND
        SCORE_THRESHOLD).1 <
      (smith_waterman_chunks S2a 5 2 GAP_OPEN GAP_EXTEND SCORE_THRESHOLD).1 := by
  decide

/-- C2 (amended): when the gap-open and gap-extend penalties are equal (so
that the trace-tag-dependent choice of gap penalty is vacuous), increasing a
single similarity entry — replacing `S a b` by any `v` with `S a b ≤ v` —
never decreases the maximum score returned by `smith_waterman_chunks`. -/
theorem C2_amended_monotone (S : Grid) (n1 n2 : Nat) (g th : ℚ) (a b : Nat)
    (v : ℚ) (hv : S a b ≤ v) :
    (smith_waterman_chunks S n1 n2 g g th).1 ≤
      (smith_waterman_chunks (updG S a b v) n1 n2 g g th).1 := by
  apply sw_maxScore_mono
  intro x y
  unfold updG
  split
  · next h =>
    obtain ⟨rfl, rfl⟩ := h
    exact hv
  · exact le_refl _

/-- Witness for the amended C2 at a concrete input. -/
theorem C2_amended_witness :
    S2a 2 0 ≤ 3 ∧
    (smith_waterman_chunks S2a 5 2 (-(1/4)) (-(1/4)) SCORE_THRESHOLD).1 ≤
      (smith_waterman_chunks (updG S2a 2 0 3) 5 2 (-(1/4)) (-(1/4))
        SCORE_THRESHOLD).1 :=
  ⟨by decide, C2_amended_monotone S2a 5 2 (-(1/4)) SCORE_THRESHOLD 2 0 3 (by decide)⟩

set_option maxRecDepth 40000 in
/-- C3 (counterexample): on the 6×2 matrix `S3c` with the default gap
parameters, `min_score = 1`, `min_chunks = 2`, `max_alignments = 2`, the
Extractor returns the scores `[3, 31/10]` in discovery order, which is
strictly increasing: masking can raise the score found by the next pass. -/
theorem C3_counterexample :
    find_multiple_alignments S3c 6 2 GAP_OPEN GAP_EXTEND 1 2 2 =
      [(3, [(2, 0), (4, 1)]), (31/10, [(0, 0), (5, 1)])] ∧
    ¬ List.Chain' (fun x y => y.1 ≤ x.1)
        (find_multiple_alignments S3c 6 2 GAP_OPEN GAP_EXTEND 1 2 2) := by
  have h : find_multiple_alignments S3c 6 2 GAP_OPEN GAP_EXTEND 1 2 2 =
      [(3, [(2, 0), (4, 1)]), (31/10, [(0, 0), (5, 1)])] := by decide
  refine ⟨h, ?_⟩
  rw [h]
  simp only [List.chain'_cons, List.chain'_singleton, and_true]
  norm_num

/-- C3 (amended): when the gap-open and gap-extend penalties are equal and
every entry of the similarity matrix is nonnegative, the scores of the
pairs returned by `find_multiple_alignments`, in discovery order, form a
non-increasing sequence. -/
theorem C3_amended_nonincreasing (S : Grid) (n1 n2 : Nat) (g mins : ℚ)
    (minc maxa : Nat) (hS : ∀ a b, 0 ≤ S a b) :
    List.Chain' (fun x y => y.1 ≤ x.1)
      (find_multiple_alignments S n1 n2 g g mins minc maxa) := by
  unfold find_multiple_alignments
  exact fmaLoop_scores_chain n1 n2 g mins minc maxa S hS

/-- C4: for every in-range cell, the score matrix built by the
dynamic-programming loop satisfies the recurrence
`H[i][j] = max(0, H[i-1][j-1] + (S[i-1][j-1] - threshold),
H[i-1][j] + (gapExtend if T[i-1][j] = UP else gapOpen),
H[i][j-1] + (gapExtend if T[i][j-1] = LEFT else gapOpen))`,
with the values of `H` and of the stored trace tags being the final ones,
and row `0` and column `0` fixed at `0`. -/
theorem C4_recurrence (S : Grid) (n1 n2 : Nat) (go ge th : ℚ) (i j : Nat)
    (h1 : 1 ≤ i) (h2 : i ≤ n1) (h3 : 1 ≤ j) (h4 : j ≤ n2) :
    (swRun S n1 n2 go ge th).H i j =
      max (max 0 ((swRun S n1 n2 go ge th).H (i - 1) (j - 1) +
          (S (i - 1) (j - 1) - th)))
        (max ((swRun S n1 n2 go ge th).H (i - 1) j +
            (if (swRun S n1 n2 go ge th).T (i - 1) j = 2 then ge else go))
          ((swRun S n1 n2 go ge th).H i (j - 1) +
            (if (swRun S n1 n2 go ge th).T i (j - 1) = 3 then ge else go))) ∧
    (swRun S n1 n2 go ge th).H 0 j = 0 ∧ (swRun S n1 n2 go ge th).H i 0 = 0 := by
  refine ⟨?_, swRun_boundary S n1 n2 go ge th 0 j (Or.inl rfl),
    swRun_boundary S n1 n2 go ge th i 0 (Or.inr rfl)⟩
  have hc := (swRun_cell S n1 n2 go ge th i j h1 h2 h3 h4).1
  rw [hc]
  unfold cellV cellT
  rw [pick4_argmax4]
  rfl

/-- C5: at every in-range cell, the stored trace tag attains the cell
maximum among the four candidates `[0, match, gap_h, gap_b]`, and it is the
first such index: if `0` (STOP) attains the maximum the tag is `0`; if the
diagonal candidate attains it the tag is at most `1`; if the vertical-gap
(UP) candidate attains it the tag is at most `2`; and the tag is never
greater than `3` — the precedence `STOP` over `DIAGONAL` over `UP` over
`LEFT` of `np.argmax`. -/
theorem C5_tiebreak (S : Grid) (n1 n2 : Nat) (go ge th : ℚ) (i j : Nat)
    (h1 : 1 ≤ i) (h2 : i ≤ n1) (h3 : 1 ≤ j) (h4 : j ≤ n2) :
    pick4 0 (mtchAt S th (swRun S n1 n2 go ge th) i j)
        (gapHAt go ge (swRun S n1 n2 go ge th) i j)
        (gapBAt go ge (swRun S n1 n2 go ge th) i j)
        ((swRun S n1 n2 go ge th).T i j) =
      max (max 0 (mtchAt S th (swRun S n1 n2 go ge th) i j))
        (max (gapHAt go ge (swRun S n1 n2 go ge th) i j)
          (gapBAt go ge (swRun S n1 n2 go ge th) i j)) ∧
    ((0 : ℚ) = max (max 0 (mtchAt S th (swRun S n1 n2 go ge th) i j))
        (max (gapHAt go ge (swRun S n1 n2 go ge th) i j)
          (gapBAt go ge (swRun S n1 n2 go ge th) i j)) →
      (swRun S n1 n2 go ge th).T i j = 0) ∧
    (mtchAt S th (swRun S n1 n2 go ge th) i j =
        max (max 0 (mtchAt S th (swRun S n1 n2 go ge th) i j))
          (max (gapHAt go ge (swRun S n1 n2 go ge th) i j)
            (gapBAt go ge (swRun S n1 n2 go ge th) i j)) →
      (swRun S n1 n2 go ge th).T i j ≤ 1) ∧
    (gapHAt go ge (swRun S n1 n2 go ge th) i j =
        max (max 0 (mtchAt S th (swRun S n1 n2 go ge th) i j))
          (max (gapHAt go ge (swRun S n1 n2 go ge th) i j)
            (gapBAt go ge (swRun S n1 n2 go ge th) i j)) →
      (swRun S n1 n2 go ge th).T i j ≤ 2) ∧
    (swRun S n1 n2 go ge th).T i j ≤ 3 := by
  have hT := (swRun_cell S n1 n2 go ge th i j h1 h2 h3 h4).2
  have hT' : (swRun S n1 n2 go ge th).T i j =
      argmax4 0 (mtchAt S th (swRun S n1 n2 go ge th) i j)
        (gapHAt go ge (swRun S n1 n2 go ge th) i j)
        (gapBAt go ge (swRun S n1 n2 go ge th) i j) := hT
  refine ⟨?_, ?_, ?_, ?_, ?_⟩
  · rw [hT']
    exact pick4_argmax4 _ _ _ _
  · intro h
    rw [hT']
    have := argmax4_least 0 (mtchAt S th (swRun S n1 n2 go ge th) i j)
      (gapHAt go ge (swRun S n1 n2 go ge th) i j)
      (gapBAt go ge (swRun S n1 n2 go ge th) i j) 0 h
    omega
  · intro h
    rw [hT']
    exact argmax4_least _ _ _ _ 1 h
  · intro h
    rw [hT']
    exact argmax4_least _ _ _ _ 2 h
  · rw [hT']
    exact argmax4_le_three _ _ _ _

/-- C6: if every entry of the similarity matrix is at most the threshold
and both gap penalties are negative, `smith_waterman_chunks` returns the
maximum score `0` and an empty alignment. -/
theorem C6_below_threshold (S : Grid) (n1 n2 : Nat) (go ge th : ℚ)
    (hS : ∀ a b, S a b ≤ th) (hgo : go < 0) (hge : ge < 0) :
    (smith_waterman_chunks S n1 n2 go ge th).1 = 0 ∧
    (smith_waterman_chunks S n1 n2 go ge th).2.1 = [] := by
  have hinv := foldl_zero_invariant S go ge th hgo hge hS (cellList n1 n2)
    initState (fun _ _ => rfl) rfl rfl
  have hsc : (swRun S n1 n2 go ge th).maxScore = 0 := hinv.2.1
  have hmp : (swRun S n1 n2 go ge th).maxPos = (0, 0) := hinv.2.2
  unfold smith_waterman_chunks
  dsimp only
  rw [hsc, hmp]
  exact ⟨rfl, rfl⟩

/-- C7: masking is idempotent in the sense that dropping the first result
of an Extractor run with `max_alignments = 2` yields exactly what a fresh
Extractor run with `max_alignments = 1` returns on the matrix obtained by
zeroing the cells of the first returned alignment (and when the first run
returns nothing, both sides are empty). -/
theorem fmaLoop_succ (n1 n2 : Nat) (go ge mins : ℚ) (minc k : Nat) (W : Grid) :
    fmaLoop n1 n2 go ge mins minc (k + 1) W =
      if (smith_waterman_chunks W n1 n2 go ge SCORE_THRESHOLD).1 < mins ∨
          (smith_waterman_chunks W n1 n2 go ge SCORE_THRESHOLD).2.1.length < minc
      then []
      else ((smith_waterman_chunks W n1 n2 go ge SCORE_THRESHOLD).1,
          (smith_waterman_chunks W n1 n2 go ge SCORE_THRESHOLD).2.1) ::
        fmaLoop n1 n2 go ge mins minc k
          (maskAll W (smith_waterman_chunks W n1 n2 go ge SCORE_THRESHOLD).2.1) :=
  rfl

/-- C7: masking is idempotent in the sense that dropping the first result
of an Extractor run with `max_alignments = 2` yields exactly what a fresh
Extractor run with `max_alignments = 1` returns on the matrix obtained by
zeroing the cells of the first returned alignment (and when the first run
returns nothing, both sides are empty). -/
theorem C7_mask_idempotent (S : Grid) (n1 n2 : Nat) (go ge mins : ℚ)
    (minc : Nat) :
    (find_multiple_alignments S n1 n2 go ge mins minc 2).drop 1 =
      find_multiple_alignments
        (maskAll S (((find_multiple_alignments S n1 n2 go ge mins minc
          1).head?.map Prod.snd).getD []))
        n1 n2 go ge mins minc 1 := by
  unfold find_multiple_alignments
  show (fmaLoop n1 n2 go ge mins minc (0 + 1 + 1) S).drop 1 =
    fmaLoop n1 n2 go ge mins minc (0 + 1)
      (maskAll S (((fmaLoop n1 n2 go ge mins minc (0 + 1)
        S).head?.map Prod.snd).getD []))
  rw [fmaLoop_succ n1 n2 go ge mins minc (0 + 1) S,
    fmaLoop_succ n1 n2 go ge mins minc 0 S]
  by_cases hc : (smith_waterman_chunks S n1 n2 go ge SCORE_THRESHOLD).1 < mins ∨
      (smith_waterman_chunks S n1 n2 go ge SCORE_THRESHOLD).2.1.length < minc
  · rw [if_pos hc, if_pos hc]
    show ([] : List (ℚ × List (Nat × Nat))).drop 1 =
      fmaLoop n1 n2 go ge mins minc (0 + 1) S
    rw [fmaLoop_succ n1 n2 go ge mins minc 0 S, if_pos hc]
    rfl
  · rw [if_neg hc, if_neg hc]
    show (((smith_waterman_chunks S n1 n2 go ge SCORE_THRESHOLD).1,
        (smith_waterman_chunks S n1 n2 go ge SCORE_THRESHOLD).2.1) ::
        fmaLoop n1 n2 go ge mins minc (0 + 1)
          (maskAll S (smith_waterman_chunks S n1 n2 go ge SCORE_THRESHOLD).2.1)).drop 1 =
      fmaLoop n1 n2 go ge mins minc (0 + 1)
        (maskAll S (smith_waterman_chunks S n1 n2 go ge SCORE_THRESHOLD).2.1)
    rfl

/-- The empty-column cell list: a `k × 0` dynamic program has no cells. -/
theorem cellList_zero_cols : ∀ k : Nat, cellList k 0 = [] := by
  intro k
  induction k with
  | zero => rfl
  | succ k ih =>
    rw [cellList, ih]
    rfl

/-- C8: on a degenerate `0 × k` or `k × 0` similarity matrix,
`smith_waterman_chunks` returns score `0` and an empty alignment, as a
normal result. -/
theorem C8_degenerate (S : Grid) (k : Nat) (go ge th : ℚ) :
    ((smith_waterman_chunks S 0 k go ge th).1 = 0 ∧
      (smith_waterman_chunks S 0 k go ge th).2.1 = []) ∧
    ((smith_waterman_chunks S k 0 go ge th).1 = 0 ∧
      (smith_waterman_chunks S k 0 go ge th).2.1 = []) := by
  have h0 : swRun S 0 k go ge th = initState := rfl
  have h1 : swRun S k 0 go ge th = initState := by
    unfold swRun
    rw [cellList_zero_cols]
    rfl
  unfold smith_waterman_chunks
  rw [h0, h1]
  exact ⟨⟨rfl, rfl⟩, ⟨rfl, rfl⟩⟩

theorem fmaStoreLoop_frame (n1 n2 : Nat) (go ge mins : ℚ) (minc work orig : Nat)
    (hw : work ≠ orig) : ∀ (k : Nat) (st : Store),
    (fmaStoreLoop n1 n2 go ge mins minc work k st).2 orig = st orig := by
  intro k
  induction k with
  | zero => intro st; rfl
  | succ k ih =>
    intro st
    unfold fmaStoreLoop
    dsimp only
    split
    · rfl
    · rw [ih]
      unfold storeSet
      rw [if_neg (Ne.symm hw)]

theorem fmaStoreLoop_agree (n1 n2 : Nat) (go ge mins : ℚ) (minc work : Nat) :
    ∀ (k : Nat) (st : Store),
    (fmaStoreLoop n1 n2 go ge mins minc work k st).1 =
      fmaLoop n1 n2 go ge mins minc k (st work) := by
  intro k
  induction k with
  | zero => intro st; rfl
  | succ k ih =>
    intro st
    unfold fmaStoreLoop fmaLoop
    dsimp only
    by_cases hc : (smith_waterman_chunks (st work) n1 n2 go ge SCORE_THRESHOLD).1 < mins ∨
        (smith_waterman_chunks (st work) n1 n2 go ge SCORE_THRESHOLD).2.1.length < minc
    · rw [if_pos hc, if_pos hc]
    · rw [if_neg hc, if_neg hc]
      dsimp only
      congr 1
      rw [ih]
      congr 1
      unfold storeSet
      rw [if_pos rfl]

/-- C9: the Extractor on the store model — the private copy `S_work` lives
in a slot distinct from the caller's matrix, every masking write goes to the
copy's slot, so after the call the caller's slot holds exactly its original
matrix; moreover the returned alignment list coincides with the pure
Extractor applied to the caller's matrix. -/
theorem C9_frame (st : Store) (orig work : Nat) (hw : work ≠ orig)
    (n1 n2 : Nat) (go ge mins : ℚ) (minc maxa : Nat) :
    (find_multiple_alignments_store st orig work n1 n2 go ge mins minc
      maxa).2 orig = st orig ∧
    (find_multiple_alignments_store st orig work n1 n2 go ge mins minc
      maxa).1 = find_multiple_alignments (st orig) n1 n2 go ge mins minc maxa := by
  unfold find_multiple_alignments_store find_multiple_alignments
  constructor
  · rw [fmaStoreLoop_frame n1 n2 go ge mins minc work orig hw maxa]
    unfold storeSet
    rw [if_neg (Ne.symm hw)]
  · rw [fmaStoreLoop_agree n1 n2 go ge mins minc work maxa]
    congr 1
    unfold storeSet
    rw [if_pos rfl]

/-- C10: every index pair of the alignment returned by
`smith_waterman_chunks` on an `n1 × n2` matrix lies within
`[0, n1) × [0, n2)`, and likewise every index pair of every alignment
returned by `find_multiple_alignments`, so the masking writes are always
in bounds. -/
theorem C10_bounds (S : Grid) (n1 n2 : Nat) (go ge th mins : ℚ)
    (minc maxa : Nat) (p q : Nat × Nat) (sa : ℚ × List (Nat × Nat)) :
    (p ∈ (smith_waterman_chunks S n1 n2 go ge th).2.1 →
      p.1 < n1 ∧ p.2 < n2) ∧
    (sa ∈ find_multiple_alignments S n1 n2 go ge mins minc maxa →
      q ∈ sa.2 → q.1 < n1 ∧ q.2 < n2) := by
  constructor
  · intro hp
    exact sw_alignment_bounds S n1 n2 go ge th p hp
  · intro hsa hq
    exact fmaLoop_alignment_bounds n1 n2 go ge mins minc maxa S sa hsa q hq

set_option maxRecDepth 40000 in
theorem S1_pair_mem :
    ((1, 0) : Nat × Nat) ∈
      (smith_waterman_chunks S1 4 4 (-(3/10)) (-(3/10)) SCORE_THRESHOLD).2.1 := by
  decide

set_option maxRecDepth 40000 in
theorem S1_sa_mem :
    ((31/5 : ℚ), [((1 : Nat), (0 : Nat)), (2, 1), (3, 3)]) ∈
      find_multiple_alignments S1 4 4 (-(3/10)) (-(3/10)) (1/100) 1 2 := by
  decide

attribute [irreducible] swRun smith_waterman_chunks tracebackGo tracebackAux
attribute [irreducible] maskAll fmaLoop find_multiple_alignments
attribute [irreducible] fmaStoreLoop find_multiple_alignments_store

/-- Witness for the amended C3 at a concrete input. -/
theorem C3_amended_witness :
    List.Chain' (fun x y => y.1 ≤ x.1)
      (find_multiple_alignments S1 4 4 (-(3/10)) (-(3/10)) (1/100) 1 2) :=
  C3_amended_nonincreasing S1 4 4 (-(3/10)) (1/100) 1 2 S1_nonneg

/-- Witness for C4 at a concrete input. -/
theorem C4_recurrence_witness :
    (swRun S1 4 4 GAP_OPEN GAP_EXTEND SCORE_THRESHOLD).H 1 1 =
      max (max 0 ((swRun S1 4 4 GAP_OPEN GAP_EXTEND SCORE_THRESHOLD).H (1 - 1) (1 - 1) +
          (S1 (1 - 1) (1 - 1) - SCORE_THRESHOLD)))
        (max ((swRun S1 4 4 GAP_OPEN GAP_EXTEND SCORE_THRESHOLD).H (1 - 1) 1 +
            (if (swRun S1 4 4 GAP_OPEN GAP_EXTEND SCORE_THRESHOLD).T (1 - 1) 1 = 2
              then GAP_EXTEND else GAP_OPEN))
          ((swRun S1 4 4 GAP_OPEN GAP_EXTEND SCORE_THRESHOLD).H 1 (1 - 1) +
            (if (swRun S1 4 4 GAP_OPEN GAP_EXTEND SCORE_THRESHOLD).T 1 (1 - 1) = 3
              then GAP_EXTEND else GAP_OPEN))) ∧
    (swRun S1 4 4 GAP_OPEN GAP_EXTEND SCORE_THRESHOLD).H 0 1 = 0 ∧
    (swRun S1 4 4 GAP_OPEN GAP_EXTEND SCORE_THRESHOLD).H 1 0 = 0 :=
  C4_recurrence S1 4 4 GAP_OPEN GAP_EXTEND SCORE_THRESHOLD 1 1 (by decide)
    (by decide) (by decide) (by decide)

/-- Witness for C5 at a concrete input. -/
theorem C5_tiebreak_witness :
    pick4 0 (mtchAt S1 SCORE_THRESHOLD (swRun S1 4 4 GAP_OPEN GAP_EXTEND SCORE_THRESHOLD) 2 2)
        (gapHAt GAP_OPEN GAP_EXTEND (swRun S1 4 4 GAP_OPEN GAP_EXTEND SCORE_THRESHOLD) 2 2)
        (gapBAt GAP_OPEN GAP_EXTEND (swRun S1 4 4 GAP_OPEN GAP_EXTEND SCORE_THRESHOLD) 2 2)
        ((swRun S1 4 4 GAP_OPEN GAP_EXTEND SCORE_THRESHOLD).T 2 2) =
      max (max 0 (mtchAt S1 SCORE_THRESHOLD (swRun S1 4 4 GAP_OPEN GAP_EXTEND SCORE_THRESHOLD) 2 2))
        (max (gapHAt GAP_OPEN GAP_EXTEND (swRun S1 4 4 GAP_OPEN GAP_EXTEND SCORE_THRESHOLD) 2 2)
          (gapBAt GAP_OPEN GAP_EXTEND (swRun S1 4 4 GAP_OPEN GAP_EXTEND SCORE_THRESHOLD) 2 2)) ∧
    ((0 : ℚ) = max (max 0 (mtchAt S1 SCORE_THRESHOLD (swRun S1 4 4 GAP_OPEN GAP_EXTEND SCORE_THRESHOLD) 2 2))
        (max (gapHAt GAP_OPEN GAP_EXTEND (swRun S1 4 4 GAP_OPEN GAP_EXTEND SCORE_THRESHOLD) 2 2)
          (gapBAt GAP_OPEN GAP_EXTEND (swRun S1 4 4 GAP_OPEN GAP_EXTEND SCORE_THRESHOLD) 2 2)) →
      (swRun S1 4 4 GAP_OPEN GAP_EXTEND SCORE_THRESHOLD).T 2 2 = 0) ∧
    (mtchAt S1 SCORE_THRESHOLD (swRun S1 4 4 GAP_OPEN GAP_EXTEND SCORE_THRESHOLD) 2 2 =
        max (max 0 (mtchAt S1 SCORE_THRESHOLD (swRun S1 4 4 GAP_OPEN GAP_EXTEND SCORE_THRESHOLD) 2 2))
          (max (gapHAt GAP_OPEN GAP_EXTEND (swRun S1 4 4 GAP_OPEN GAP_EXTEND SCORE_THRESHOLD) 2 2)
            (gapBAt GAP_OPEN GAP_EXTEND (swRun S1 4 4 GAP_OPEN GAP_EXTEND SCORE_THRESHOLD) 2 2)) →
      (swRun S1 4 4 GAP_OPEN GAP_EXTEND SCORE_THRESHOLD).T 2 2 ≤ 1) ∧
    (gapHAt GAP_OPEN GAP_EXTEND (swRun S1 4 4 GAP_OPEN GAP_EXTEND SCORE_THRESHOLD) 2 2 =
        max (max 0 (mtchAt S1 SCORE_THRESHOLD (swRun S1 4 4 GAP_OPEN GAP_EXTEND SCORE_THRESHOLD) 2 2))
          (max (gapHAt GAP_OPEN GAP_EXTEND (swRun S1 4 4 GAP_OPEN GAP_EXTEND SCORE_THRESHOLD) 2 2)
            (gapBAt GAP_OPEN GAP_EXTEND (swRun S1 4 4 GAP_OPEN GAP_EXTEND SCORE_THRESHOLD) 2 2)) →
      (swRun S1 4 4 GAP_OPEN GAP_EXTEND SCORE_THRESHOLD).T 2 2 ≤ 2) ∧
    (swRun S1 4 4 GAP_OPEN GAP_EXTEND SCORE_THRESHOLD).T 2 2 ≤ 3 :=
  C5_tiebreak S1 4 4 GAP_OPEN GAP_EXTEND SCORE_THRESHOLD 2 2 (by decide)
    (by decide) (by decide) (by decide)

/-- Witness for C6 at a concrete input. -/
theorem C6_below_threshold_witness :
    (smith_waterman_chunks (fun _ _ => 0) 2 2 (-(1/5)) (-(1/10)) (1/2)).1 = 0 ∧
    (smith_waterman_chunks (fun _ _ => 0) 2 2 (-(1/5)) (-(1/10)) (1/2)).2.1 = [] :=
  C6_below_threshold (fun _ _ => 0) 2 2 (-(1/5)) (-(1/10)) (1/2)
    (fun _ _ => by norm_num) (by norm_num) (by norm_num)

/-- Witness for C9 at a concrete input. -/
theorem C9_frame_witness :
    (find_multiple_alignments_store (fun _ => S2a) 0 1 5 2 GAP_OPEN GAP_EXTEND
      1 3 10).2 0 = (fun _ => S2a) 0 ∧
    (find_multiple_alignments_store (fun _ => S2a) 0 1 5 2 GAP_OPEN GAP_EXTEND
      1 3 10).1 =
      find_multiple_alignments ((fun _ => S2a) 0) 5 2 GAP_OPEN GAP_EXTEND 1 3 10 :=
  C9_frame (fun _ => S2a) 0 1 (by decide) 5 2 GAP_OPEN GAP_EXTEND 1 3 10

/-- Witness for C10 at a concrete input. -/
theorem C10_bounds_witness :
    ((1 : Nat) < 4 ∧ (0 : Nat) < 4) ∧ ((2 : Nat) < 4 ∧ (1 : Nat) < 4) :=
  ⟨(C10_bounds S1 4 4 (-(3/10)) (-(3/10)) SCORE_THRESHOLD (1/100) 1 2
      (1, 0) (2, 1) ((31/5 : ℚ), [(1, 0), (2, 1), (3, 3)])).1 S1_pair_mem,
    (C10_bounds S1 4 4 (-(3/10)) (-(3/10)) SCORE_THRESHOLD (1/100) 1 2
      (1, 0) (2, 1) ((31/5 : ℚ), [(1, 0), (2, 1), (3, 3)])).2 S1_sa_mem
      (by decide)⟩

end ProtAlign
